import Mathlib

set_option linter.unusedSectionVars false

/-!
Verification development for the `lending-library` crate
(github.com/harkonenbade/lending-library).

The store `LendingLibrary<K, V>` is a `HashMap<K, State<V>>` together with an
atomic counter `outstanding` of live loans.  We embed the map as an
association list with at most one entry per key (hash-map iteration order is
unspecified; the list order stands in for it) and the counter as a natural
number.  The code updates the counter with wrapping `fetch_add`/`fetch_sub`
on a `usize`.  The decrement is embedded by `fetchSubOne`, which agrees
with the source's wrapping subtraction on every value a `usize` can hold:
`0` wraps to `usize::MAX = 2^64 - 1` (observable in the panic state of a
double check-in, as in the crate's `double_reinsert` test) and every
positive counter decrements by one.  The increment is embedded as plain
`+ 1`: its sole wrap point, `2^64 - 1`, would require that many
simultaneously outstanding loans — more than a `usize`-indexed map can
hold — and is unreachable (see the reachability invariant proved below,
`outstanding` = number of `Loaned` plus `AwaitingDrop` slots).

A Rust `panic!` is a fatal, non-returning failure.  Operations that can
panic return a `PResult`, which records either a normal result together
with the store as left behind, or the panic message together with the store
as it stood at the moment of the panic (mutations performed before the
panic are visible there, exactly as in the source).
-/

/-- The three-state lifecycle of a slot, from `enum State<V>` in `lib.rs`:
`Present(V)`, `Loaned`, `AwaitingDrop`. -/
inductive State (V : Type) where
  | Present : V → State V
  | Loaned : State V
  | AwaitingDrop : State V
deriving DecidableEq

/-- The store: `HashMap<K, State<V>>` (embedded as an association list)
plus the `outstanding` loan counter. -/
structure LendingLibrary (K V : Type) where
  store : List (K × State V)
  outstanding : Nat
deriving DecidableEq

/-- Outcome of an operation that may `panic!`: `ok a s` is a normal return
of `a` leaving the store `s`; `panic msg s` is a fatal failure with message
`msg`, `s` being the store at the instant of the panic. -/
inductive PResult (σ α : Type) where
  | ok : α → σ → PResult σ α
  | panic : String → σ → PResult σ α
deriving DecidableEq

/-- Whether a `PResult` is a fatal failure. -/
def PResult.isPanic {σ α : Type} : PResult σ α → Bool
  | PResult.ok _ _ => false
  | PResult.panic _ _ => true

/-- The loan guard `Loan<K, V>` from `lib.rs`, minus the raw owner pointer
(the owning store is passed explicitly to `loanDrop`): `key: Option<K>`,
`inner: Option<V>`. -/
structure Loan (K V : Type) where
  key : Option K
  inner : Option V
deriving DecidableEq

namespace LendingLibrary

variable {K V : Type} [DecidableEq K]

/-- `HashMap::get`: the slot stored under `k`, if any (first occurrence in
the association list). -/
def lookupSlot (k : K) : List (K × State V) → Option (State V)
  | [] => none
  | (k', st) :: t => if k' = k then some st else lookupSlot k t

/-- `OccupiedEntry::insert(st)`: overwrite the slot stored under `k`
(keeping the stored key), leaving the rest of the map untouched. -/
def replaceSlot (k : K) (st : State V) : List (K × State V) → List (K × State V)
  | [] => []
  | (k', st') :: t => if k' = k then (k', st) :: t else (k', st') :: replaceSlot k st t

/-- `OccupiedEntry::remove` / `HashMap::remove`: delete the slot stored
under `k`. -/
def eraseSlot (k : K) : List (K × State V) → List (K × State V)
  | [] => []
  | (k', st') :: t => if k' = k then t else (k', st') :: eraseSlot k t

/-- `HashMap::insert(k, st)`: store `st` under `k`, returning the previous
slot (if any) together with the updated map.  A fresh key is appended. -/
def insertSlot (k : K) (st : State V) : List (K × State V) → Option (State V) × List (K × State V)
  | [] => (none, [(k, st)])
  | (k', st') :: t =>
    if k' = k then (some st', (k', st) :: t)
    else
      let r := insertSlot k st t
      (r.1, (k', st') :: r.2)

/-- `LendingLibrary::new()`: empty map, zero outstanding loans. -/
def new : LendingLibrary K V := ⟨[], 0⟩

/-- `LendingLibrary::len()`: sums `1` for each `Present` or `Loaned` slot
and `0` for each `AwaitingDrop` slot. -/
def len (s : LendingLibrary K V) : Nat :=
  (s.store.map (fun p =>
    match p.2 with
    | State.Present _ => 1
    | State.Loaned => 1
    | State.AwaitingDrop => 0)).sum

/-- `LendingLibrary::is_empty()`: `len() == 0`. -/
def is_empty (s : LendingLibrary K V) : Bool :=
  s.len == 0

/-- The body of `clear`'s `retain` closure, traversing the entries:
`Present` entries are dropped, `AwaitingDrop` entries are kept, and a
`Loaned` entry panics. -/
def clearStore : List (K × State V) → Option (List (K × State V))
  | [] => some []
  | (k, st) :: t =>
    match st with
    | State.Present _ => clearStore t
    | State.AwaitingDrop => (clearStore t).map (fun r => (k, State.AwaitingDrop) :: r)
    | State.Loaned => none

/-- `LendingLibrary::clear()`: `retain` keeping `AwaitingDrop` slots,
dropping `Present` slots, panicking on any `Loaned` slot. -/
def clear (s : LendingLibrary K V) : PResult (LendingLibrary K V) Unit :=
  match clearStore s.store with
  | some store' => PResult.ok () ⟨store', s.outstanding⟩
  | none => PResult.panic "Trying to clear while values loaned." s

/-- `LendingLibrary::contains_key(key)`: `true` for a `Present` or `Loaned`
slot, `false` for `AwaitingDrop` or an absent key. -/
def contains_key (s : LendingLibrary K V) (k : K) : Bool :=
  match lookupSlot k s.store with
  | some (State.Present _) => true
  | some State.Loaned => true
  | some State.AwaitingDrop => false
  | none => false

/-- `LendingLibrary::insert(key, val)`: `self.store.insert(key, Present(val))`,
then match on the previous slot — `Present(v)` returns `Some(v)`, `Loaned`
and `AwaitingDrop` panic, absent returns `None`. -/
def insert (s : LendingLibrary K V) (k : K) (v : V) : PResult (LendingLibrary K V) (Option V) :=
  let r := insertSlot k (State.Present v) s.store
  match r.1 with
  | some (State.Present w) => PResult.ok (some w) ⟨r.2, s.outstanding⟩
  | some State.Loaned => PResult.panic "Cannot overwrite loaned value" ⟨r.2, s.outstanding⟩
  | some State.AwaitingDrop =>
      PResult.panic "Cannot overwrite value awaiting drop" ⟨r.2, s.outstanding⟩
  | none => PResult.ok none ⟨r.2, s.outstanding⟩

/-- `LendingLibrary::remove(key)`: on an occupied entry, `e.insert(AwaitingDrop)`
and match the previous slot — `Present` additionally `e.remove()`s the entry
and returns `true`, `Loaned` returns `true`, `AwaitingDrop` returns `false`;
a vacant entry returns `false`. -/
def remove (s : LendingLibrary K V) (k : K) : Bool × LendingLibrary K V :=
  match lookupSlot k s.store with
  | some old =>
    let store' := replaceSlot k State.AwaitingDrop s.store
    match old with
    | State.Present _ => (true, ⟨eraseSlot k store', s.outstanding⟩)
    | State.Loaned => (true, ⟨store', s.outstanding⟩)
    | State.AwaitingDrop => (false, ⟨store', s.outstanding⟩)
  | none => (false, s)

/-- `LendingLibrary::lend(key)`: on an occupied entry, `e.insert(Loaned)` and
match the previous slot — `Present(val)` bumps `outstanding` and returns a
`Loan` holding the key and `val`, `Loaned` and `AwaitingDrop` panic; a
vacant entry returns `None`. -/
def lend (s : LendingLibrary K V) (k : K) : PResult (LendingLibrary K V) (Option (Loan K V)) :=
  match lookupSlot k s.store with
  | some old =>
    let store' := replaceSlot k State.Loaned s.store
    match old with
    | State.Present v =>
        PResult.ok (some ⟨some k, some v⟩) ⟨store', s.outstanding + 1⟩
    | State.Loaned => PResult.panic "Lending already loaned value" ⟨store', s.outstanding⟩
    | State.AwaitingDrop => PResult.panic "Lending value awaiting drop" ⟨store', s.outstanding⟩
  | none => PResult.ok none s

/-- The number of values of `usize`: `2^64` on the 64-bit targets the crate
is built for. -/
def USIZE : Nat := 2 ^ 64

/-- `AtomicUsize::fetch_sub(1, Ordering::Relaxed)` on the outstanding-loan
counter: the wrapping decrement of a `usize`.  On every value a `usize` can
hold this is exactly the source's wrapping subtraction — `0` wraps to
`usize::MAX = USIZE - 1`, any positive counter decrements by one. -/
def fetchSubOne (n : Nat) : Nat :=
  if n = 0 then USIZE - 1 else n - 1

/-- `LendingLibrary::checkin(key, val)`: on an occupied entry, decrement
`outstanding`, `e.insert(Present(val))` and match the previous slot —
`Present` panics, `Loaned` returns normally, `AwaitingDrop` additionally
`e.remove()`s the entry; a vacant entry panics before touching the counter. -/
def checkin (s : LendingLibrary K V) (k : K) (v : V) : PResult (LendingLibrary K V) Unit :=
  match lookupSlot k s.store with
  | some old =>
    let out' := fetchSubOne s.outstanding
    let store' := replaceSlot k (State.Present v) s.store
    match old with
    | State.Present _ => PResult.panic "Returning replaced item" ⟨store', out'⟩
    | State.Loaned => PResult.ok () ⟨store', out'⟩
    | State.AwaitingDrop => PResult.ok () ⟨eraseSlot k store', out'⟩
  | none => PResult.panic "Returning item not from store" s

/-- `Drop for LendingLibrary`: when not already unwinding, a nonzero
`outstanding` count is fatal with the count in the message; returns the
panic message when the drop panics. -/
def dropLibrary (panicking : Bool) (s : LendingLibrary K V) : Option String :=
  if !panicking then
    let count := s.outstanding
    if count ≠ 0 then some (toString count ++ " value loans outlived store.") else none
  else none

/-- `Drop for Loan`: when the loan still holds a value and the thread is not
already unwinding, hand the key and value back through `checkin`; a released
or unwinding loan does nothing. -/
def loanDrop (panicking : Bool) (l : Loan K V) (s : LendingLibrary K V) :
    PResult (LendingLibrary K V) Unit :=
  if l.inner.isSome && !panicking then
    match l.key, l.inner with
    | some k, some v => checkin s k v
    | _, _ => PResult.panic "called `Option::unwrap()` on a `None` value" s
  else PResult.ok () s

/-- The shared traversal of `iter.rs`: each entry is matched — a `Present`
entry yields its pair, any other slot (the `_` arm) panics with
"Trying to iterate over a store with loaned items.". `none` models a panic
while draining the iterator. -/
def iterEntries : List (K × State V) → Option (List (K × V))
  | [] => some []
  | (k, st) :: t =>
    match st with
    | State.Present v => (iterEntries t).map (fun r => (k, v) :: r)
    | _ => none

/-- `LendingLibrary::iter()` (via `IntoIterator for &LendingLibrary`), fully
drained: the pairs yielded, or `none` when draining panics. -/
def iter (s : LendingLibrary K V) : Option (List (K × V)) :=
  iterEntries s.store

/-- The traversal of `IntoIterator for &mut LendingLibrary`, fully drained
with the caller writing `f k v` through each yielded `&mut` reference:
the pairs as first yielded, together with the store as left mutated, or
`none` when draining panics. -/
def iterMutEntries (f : K → V → V) :
    List (K × State V) → Option (List (K × V) × List (K × State V))
  | [] => some ([], [])
  | (k, st) :: t =>
    match st with
    | State.Present v =>
        (iterMutEntries f t).map (fun r => ((k, v) :: r.1, (k, State.Present (f k v)) :: r.2))
    | _ => none

/-- `LendingLibrary::iter_mut()`, fully drained with mutation `f`. -/
def iter_mut (s : LendingLibrary K V) (f : K → V → V) :
    Option (List (K × V) × LendingLibrary K V) :=
  (iterMutEntries f s.store).map (fun r => (r.1, ⟨r.2, s.outstanding⟩))

/-- The `(key, value)` pairs of the `Present` entries of a map, in entry
order. -/
def presentPairs (l : List (K × State V)) : List (K × V) :=
  l.filterMap (fun p =>
    match p.2 with
    | State.Present v => some (p.1, v)
    | _ => none)

/-- The map after a full mutable iteration writing `f k v` through every
yielded reference; non-`Present` entries are untouched. -/
def mutStore (f : K → V → V) (l : List (K × State V)) : List (K × State V) :=
  l.map (fun p =>
    match p.2 with
    | State.Present v => (p.1, State.Present (f p.1 v))
    | st => (p.1, st))

/-- Count of entries whose slot satisfies `q`. -/
def countSt (q : State V → Bool) (l : List (K × State V)) : Nat :=
  l.countP (fun p => q p.2)

/-- Slot is `Loaned`. -/
def isLoaned : State V → Bool
  | State.Loaned => true
  | _ => false

/-- Slot is `AwaitingDrop`. -/
def isAwaitingDrop : State V → Bool
  | State.AwaitingDrop => true
  | _ => false

/-- Slot is `Present` or `Loaned` (counts toward `len`, satisfies
`contains_key`). -/
def isLive : State V → Bool
  | State.Present _ => true
  | State.Loaned => true
  | State.AwaitingDrop => false

/-- A store is well formed when, as in a `HashMap`, no key occurs twice. -/
def WF (s : LendingLibrary K V) : Prop :=
  (s.store.map Prod.fst).Nodup

/-- Stores reachable from the empty store by non-panicking `insert`,
`remove`, `lend` and loan-release (`checkin`, as invoked by `Drop for Loan`)
operations. -/
inductive Reachable : LendingLibrary K V → Prop where
  | init : Reachable new
  | insertStep (s : LendingLibrary K V) (k : K) (v : V) (old : Option V)
      (s' : LendingLibrary K V) :
      Reachable s → insert s k v = PResult.ok old s' → Reachable s'
  | removeStep (s : LendingLibrary K V) (k : K) (b : Bool) (s' : LendingLibrary K V) :
      Reachable s → remove s k = (b, s') → Reachable s'
  | lendStep (s : LendingLibrary K V) (k : K) (r : Option (Loan K V))
      (s' : LendingLibrary K V) :
      Reachable s → lend s k = PResult.ok r s' → Reachable s'
  | releaseStep (s : LendingLibrary K V) (k : K) (v : V) (s' : LendingLibrary K V) :
      Reachable s → checkin s k v = PResult.ok () s' → Reachable s'

/-! ### Lemmas about the association-list primitives -/

theorem lookupSlot_replace_self {k : K} {l : List (K × State V)} {old : State V}
    (st : State V) (h : lookupSlot k l = some old) :
    lookupSlot k (replaceSlot k st l) = some st := by
  induction l with
  | nil => simp [lookupSlot] at h
  | cons p t ih =>
    obtain ⟨k', st'⟩ := p
    by_cases hk : k' = k
    · simp [lookupSlot, replaceSlot, hk]
    · simp only [lookupSlot, replaceSlot, if_neg hk] at h ⊢
      exact ih h

theorem replaceSlot_lookup_eq {k : K} {l : List (K × State V)} {st : State V}
    (h : lookupSlot k l = some st) : replaceSlot k st l = l := by
  induction l with
  | nil => simp [lookupSlot] at h
  | cons p t ih =>
    obtain ⟨k', st'⟩ := p
    by_cases hk : k' = k
    · simp only [lookupSlot, if_pos hk, Option.some.injEq] at h
      simp [replaceSlot, hk, h]
    · simp only [lookupSlot, if_neg hk] at h
      simp [replaceSlot, hk, ih h]

theorem eraseSlot_replaceSlot (k : K) (st : State V) (l : List (K × State V)) :
    eraseSlot k (replaceSlot k st l) = eraseSlot k l := by
  induction l with
  | nil => rfl
  | cons p t ih =>
    obtain ⟨k', st'⟩ := p
    by_cases hk : k' = k
    · simp [replaceSlot, eraseSlot, hk]
    · simp [replaceSlot, eraseSlot, hk, ih]

theorem insertSlot_fst (k : K) (st : State V) (l : List (K × State V)) :
    (insertSlot k st l).1 = lookupSlot k l := by
  induction l with
  | nil => rfl
  | cons p t ih =>
    obtain ⟨k', st'⟩ := p
    by_cases hk : k' = k
    · simp [insertSlot, lookupSlot, hk]
    · simp [insertSlot, lookupSlot, hk, ih]

theorem insertSlot_snd_of_lookup {k : K} {l : List (K × State V)} {old : State V}
    (st : State V) (h : lookupSlot k l = some old) :
    (insertSlot k st l).2 = replaceSlot k st l := by
  induction l with
  | nil => simp [lookupSlot] at h
  | cons p t ih =>
    obtain ⟨k', st'⟩ := p
    by_cases hk : k' = k
    · simp [insertSlot, replaceSlot, hk]
    · simp only [lookupSlot, if_neg hk] at h
      simp [insertSlot, replaceSlot, hk, ih h]

theorem insertSlot_snd_of_none {k : K} {l : List (K × State V)}
    (st : State V) (h : lookupSlot k l = none) :
    (insertSlot k st l).2 = l ++ [(k, st)] := by
  induction l with
  | nil => rfl
  | cons p t ih =>
    obtain ⟨k', st'⟩ := p
    by_cases hk : k' = k
    · simp [lookupSlot, hk] at h
    · simp only [lookupSlot, if_neg hk] at h
      simp [insertSlot, hk, ih h]

theorem lookupSlot_insertSlot (k : K) (st : State V) (l : List (K × State V)) :
    lookupSlot k (insertSlot k st l).2 = some st := by
  induction l with
  | nil => simp [insertSlot, lookupSlot]
  | cons p t ih =>
    obtain ⟨k', st'⟩ := p
    by_cases hk : k' = k
    · simp [insertSlot, lookupSlot, hk]
    · simp [insertSlot, lookupSlot, hk, ih]

theorem lookupSlot_eq_none_of_not_mem {k : K} {l : List (K × State V)}
    (h : k ∉ l.map Prod.fst) : lookupSlot k l = none := by
  induction l with
  | nil => rfl
  | cons p t ih =>
    obtain ⟨k', st'⟩ := p
    simp only [List.map_cons, List.mem_cons, not_or] at h
    have hk : ¬k' = k := fun he => h.1 he.symm
    simp [lookupSlot, hk, ih h.2]

theorem lookupSlot_eraseSlot_of_nodup {k : K} {l : List (K × State V)}
    (h : (l.map Prod.fst).Nodup) : lookupSlot k (eraseSlot k l) = none := by
  induction l with
  | nil => rfl
  | cons p t ih =>
    obtain ⟨k', st'⟩ := p
    simp only [List.map_cons, List.nodup_cons] at h
    by_cases hk : k' = k
    · subst hk
      simp only [eraseSlot, if_pos rfl]
      exact lookupSlot_eq_none_of_not_mem h.1
    · simp [eraseSlot, lookupSlot, hk, ih h.2]

/-! ### Counting lemmas -/

theorem fetchSubOne_pos {n : Nat} (h : 0 < n) : fetchSubOne n = n - 1 := by
  unfold fetchSubOne
  rw [if_neg (by omega)]

theorem countSt_nil (q : State V → Bool) : countSt q ([] : List (K × State V)) = 0 := rfl

theorem countSt_cons (q : State V → Bool) (p : K × State V) (l : List (K × State V)) :
    countSt q (p :: l) = countSt q l + (if q p.2 then 1 else 0) := by
  simp [countSt, List.countP_cons]

theorem countSt_append (q : State V → Bool) (l l' : List (K × State V)) :
    countSt q (l ++ l') = countSt q l + countSt q l' := by
  simp [countSt, List.countP_append]

theorem countSt_replace {k : K} {l : List (K × State V)} {old : State V}
    (q : State V → Bool) (st : State V) (h : lookupSlot k l = some old) :
    countSt q (replaceSlot k st l) + (if q old then 1 else 0) =
      countSt q l + (if q st then 1 else 0) := by
  induction l with
  | nil => simp [lookupSlot] at h
  | cons p t ih =>
    obtain ⟨k', st'⟩ := p
    by_cases hk : k' = k
    · simp only [lookupSlot, if_pos hk, Option.some.injEq] at h
      subst h
      simp only [replaceSlot, if_pos hk, countSt_cons]
      try omega
    · simp only [lookupSlot, if_neg hk] at h
      simp only [replaceSlot, if_neg hk, countSt_cons]
      have := ih h
      omega

theorem countSt_erase {k : K} {l : List (K × State V)} {old : State V}
    (q : State V → Bool) (h : lookupSlot k l = some old) :
    countSt q (eraseSlot k l) + (if q old then 1 else 0) = countSt q l := by
  induction l with
  | nil => simp [lookupSlot] at h
  | cons p t ih =>
    obtain ⟨k', st'⟩ := p
    by_cases hk : k' = k
    · simp only [lookupSlot, if_pos hk, Option.some.injEq] at h
      subst h
      simp only [eraseSlot, if_pos hk, countSt_cons]
      try omega
    · simp only [lookupSlot, if_neg hk] at h
      simp only [eraseSlot, if_neg hk, countSt_cons]
      have := ih h
      omega

theorem countSt_pos {k : K} {l : List (K × State V)} {old : State V}
    (q : State V → Bool) (h : lookupSlot k l = some old) (hq : q old = true) :
    0 < countSt q l := by
  induction l with
  | nil => simp [lookupSlot] at h
  | cons p t ih =>
    obtain ⟨k', st'⟩ := p
    by_cases hk : k' = k
    · simp only [lookupSlot, if_pos hk, Option.some.injEq] at h
      subst h
      simp [countSt_cons, hq]
    · simp only [lookupSlot, if_neg hk] at h
      have := ih h
      simp only [countSt_cons]
      omega

theorem len_eq_countSt (s : LendingLibrary K V) : len s = countSt isLive s.store := by
  obtain ⟨l, n⟩ := s
  induction l with
  | nil => rfl
  | cons p t ih =>
    obtain ⟨k', st'⟩ := p
    have ih' := ih
    simp only [len, List.map_cons, List.sum_cons, countSt_cons] at ih' ⊢
    cases st' <;> simp [isLive] <;> omega

/-! ### Iteration and clear lemmas -/

theorem iterEntries_of_all_present {l : List (K × State V)}
    (h : ∀ p ∈ l, ∃ v, p.2 = State.Present v) :
    iterEntries l = some (presentPairs l) := by
  induction l with
  | nil => rfl
  | cons p t ih =>
    obtain ⟨k', st'⟩ := p
    obtain ⟨v, hv⟩ := h (k', st') (List.mem_cons_self _ _)
    simp only at hv
    subst hv
    have ht : ∀ p ∈ t, ∃ v, p.2 = State.Present v := fun p hp => h p (List.mem_cons_of_mem _ hp)
    simp [iterEntries, presentPairs, ih ht]

theorem iterEntries_eq_none {l : List (K × State V)}
    (h : ∃ p ∈ l, ∀ v, p.2 ≠ State.Present v) :
    iterEntries l = none := by
  induction l with
  | nil => simp at h
  | cons p t ih =>
    obtain ⟨k', st'⟩ := p
    obtain ⟨q, hq, hnp⟩ := h
    rcases List.mem_cons.mp hq with heq | htl
    · subst heq
      cases hst : st' with
      | Present v => exact absurd (hst ▸ rfl) (hnp v)
      | Loaned => simp [iterEntries]
      | AwaitingDrop => simp [iterEntries]
    · clear hq
      cases st' with
      | Present v => simp [iterEntries, ih ⟨q, htl, hnp⟩]
      | Loaned => simp [iterEntries]
      | AwaitingDrop => simp [iterEntries]

theorem iterMutEntries_of_all_present {l : List (K × State V)} (f : K → V → V)
    (h : ∀ p ∈ l, ∃ v, p.2 = State.Present v) :
    iterMutEntries f l = some (presentPairs l, mutStore f l) := by
  induction l with
  | nil => rfl
  | cons p t ih =>
    obtain ⟨k', st'⟩ := p
    obtain ⟨v, hv⟩ := h (k', st') (List.mem_cons_self _ _)
    simp only at hv
    subst hv
    have ht : ∀ p ∈ t, ∃ v, p.2 = State.Present v := fun p hp => h p (List.mem_cons_of_mem _ hp)
    simp [iterMutEntries, ih ht, presentPairs, mutStore]

theorem iterMutEntries_eq_none {l : List (K × State V)} (f : K → V → V)
    (h : ∃ p ∈ l, ∀ v, p.2 ≠ State.Present v) :
    iterMutEntries f l = none := by
  induction l with
  | nil => simp at h
  | cons p t ih =>
    obtain ⟨k', st'⟩ := p
    obtain ⟨q, hq, hnp⟩ := h
    rcases List.mem_cons.mp hq with heq | htl
    · subst heq
      cases hst : st' with
      | Present v => exact absurd (hst ▸ rfl) (hnp v)
      | Loaned => simp [iterMutEntries]
      | AwaitingDrop => simp [iterMutEntries]
    · clear hq
      cases st' with
      | Present v => simp [iterMutEntries, ih ⟨q, htl, hnp⟩]
      | Loaned => simp [iterMutEntries]
      | AwaitingDrop => simp [iterMutEntries]

theorem clearStore_of_no_loaned {l : List (K × State V)}
    (h : ∀ p ∈ l, isLoaned p.2 = false) :
    clearStore l = some (l.filter (fun p => isAwaitingDrop p.2)) := by
  induction l with
  | nil => rfl
  | cons p t ih =>
    obtain ⟨k', st'⟩ := p
    have ht : ∀ p ∈ t, isLoaned p.2 = false := fun p hp => h p (List.mem_cons_of_mem _ hp)
    cases st' with
    | Present v => simp [clearStore, ih ht, List.filter, isAwaitingDrop]
    | Loaned => exact absurd (h (k', State.Loaned) (List.mem_cons_self _ _)) (by simp [isLoaned])
    | AwaitingDrop => simp [clearStore, ih ht, List.filter, isAwaitingDrop]

theorem clearStore_eq_none {l : List (K × State V)}
    (h : ∃ p ∈ l, isLoaned p.2 = true) :
    clearStore l = none := by
  induction l with
  | nil => simp at h
  | cons p t ih =>
    obtain ⟨k', st'⟩ := p
    obtain ⟨q, hq, hl⟩ := h
    rcases List.mem_cons.mp hq with heq | htl
    · subst heq
      cases hst : st' with
      | Present v => rw [hst] at hl; simp [isLoaned] at hl
      | Loaned => simp [clearStore]
      | AwaitingDrop => rw [hst] at hl; simp [isLoaned] at hl
    · clear hq
      cases st' with
      | Present v => simp [clearStore, ih ⟨q, htl, hl⟩]
      | Loaned => simp [clearStore]
      | AwaitingDrop => simp [clearStore, ih ⟨q, htl, hl⟩]

/-! ### Claim theorems -/

/-- Claim C1: `lend(key)` returns `None` and leaves the store unchanged when
the key is absent; on a `Present(value)` slot it transitions the slot to
`Loaned`, increments the outstanding-loan counter by one and returns a
`Loan` owning exactly that value (and the key); on a `Loaned` or
`AwaitingDrop` slot it fails fatally. -/
theorem lend_spec (s : LendingLibrary K V) (k : K) :
    (lookupSlot k s.store = none → lend s k = PResult.ok none s) ∧
    (∀ v, lookupSlot k s.store = some (State.Present v) →
      lend s k = PResult.ok (some ⟨some k, some v⟩)
        ⟨replaceSlot k State.Loaned s.store, s.outstanding + 1⟩) ∧
    (lookupSlot k s.store = some State.Loaned → (lend s k).isPanic = true) ∧
    (lookupSlot k s.store = some State.AwaitingDrop → (lend s k).isPanic = true) := by
  refine ⟨?_, ?_, ?_, ?_⟩
  · intro h; simp [lend, h]
  · intro v h; simp [lend, h]
  · intro h; simp [lend, h, PResult.isPanic]
  · intro h; simp [lend, h, PResult.isPanic]

/-- Claim C1 witness: the four cases of `lend_spec` at concrete stores over
`Nat` keys and values. -/
theorem lend_spec_witness :
    (lend (⟨[], 0⟩ : LendingLibrary Nat Nat) 1 = PResult.ok none ⟨[], 0⟩) ∧
    (lend (⟨[(1, State.Present 5)], 0⟩ : LendingLibrary Nat Nat) 1 =
      PResult.ok (some ⟨some 1, some 5⟩)
        ⟨replaceSlot 1 State.Loaned [(1, State.Present 5)], 1⟩) ∧
    ((lend (⟨[(1, State.Loaned)], 1⟩ : LendingLibrary Nat Nat) 1).isPanic = true) ∧
    ((lend (⟨[(1, State.AwaitingDrop)], 1⟩ : LendingLibrary Nat Nat) 1).isPanic = true) :=
  ⟨(lend_spec ⟨[], 0⟩ 1).1 rfl,
   (lend_spec ⟨[(1, State.Present 5)], 0⟩ 1).2.1 5 (by decide),
   (lend_spec ⟨[(1, State.Loaned)], 1⟩ 1).2.2.1 (by decide),
   (lend_spec ⟨[(1, State.AwaitingDrop)], 1⟩ 1).2.2.2 (by decide)⟩

/-- Claim C2: `remove(key)` returns `false` and is a no-op on an absent key;
deletes the slot and returns `true` on a `Present` slot; replaces a `Loaned`
slot with `AwaitingDrop` (without deleting it) and returns `true`; returns
`false` leaving the slot `AwaitingDrop` when already `AwaitingDrop`; and on a
well-formed store a second and every later `remove` of the same key returns
`false`. -/
theorem remove_spec (s : LendingLibrary K V) (k : K) :
    (lookupSlot k s.store = none → remove s k = (false, s)) ∧
    (∀ v, lookupSlot k s.store = some (State.Present v) →
      remove s k = (true, ⟨eraseSlot k s.store, s.outstanding⟩)) ∧
    (lookupSlot k s.store = some State.Loaned →
      remove s k = (true, ⟨replaceSlot k State.AwaitingDrop s.store, s.outstanding⟩) ∧
      lookupSlot k (replaceSlot k State.AwaitingDrop s.store) = some State.AwaitingDrop) ∧
    (lookupSlot k s.store = some State.AwaitingDrop → remove s k = (false, s)) ∧
    (WF s → (remove (remove s k).2 k).1 = false) := by
  refine ⟨?_, ?_, ?_, ?_, ?_⟩
  · intro h; simp [remove, h]
  · intro v h; simp [remove, h, eraseSlot_replaceSlot]
  · intro h
    exact ⟨by simp [remove, h], lookupSlot_replace_self _ h⟩
  · intro h
    simp [remove, h, replaceSlot_lookup_eq h]
  · intro hw
    rcases hl : lookupSlot k s.store with _ | st
    · simp [remove, hl]
    · cases st with
      | Present v =>
        have h2 : lookupSlot k (eraseSlot k s.store) = none :=
          lookupSlot_eraseSlot_of_nodup hw
        simp [remove, hl, eraseSlot_replaceSlot, h2]
      | Loaned =>
        have h2 := lookupSlot_replace_self (l := s.store) State.AwaitingDrop hl
        simp [remove, hl, h2]
      | AwaitingDrop =>
        simp [remove, hl, replaceSlot_lookup_eq hl]

/-- Claim C2 witness: the five cases of `remove_spec` at concrete stores. -/
theorem remove_spec_witness :
    (remove (⟨[], 0⟩ : LendingLibrary Nat Nat) 1 = (false, ⟨[], 0⟩)) ∧
    (remove (⟨[(1, State.Present 5)], 0⟩ : LendingLibrary Nat Nat) 1 =
      (true, ⟨eraseSlot 1 [(1, State.Present 5)], 0⟩)) ∧
    (remove (⟨[(1, State.Loaned)], 1⟩ : LendingLibrary Nat Nat) 1 =
      (true, ⟨replaceSlot 1 State.AwaitingDrop [(1, State.Loaned)], 1⟩)) ∧
    (remove (⟨[(1, State.AwaitingDrop)], 1⟩ : LendingLibrary Nat Nat) 1 =
      (false, ⟨[(1, State.AwaitingDrop)], 1⟩)) ∧
    ((remove (remove (⟨[(1, State.Present 5)], 0⟩ : LendingLibrary Nat Nat) 1).2 1).1 = false) :=
  ⟨(remove_spec ⟨[], 0⟩ 1).1 rfl,
   (remove_spec ⟨[(1, State.Present 5)], 0⟩ 1).2.1 5 (by decide),
   ((remove_spec ⟨[(1, State.Loaned)], 1⟩ 1).2.2.1 (by decide)).1,
   (remove_spec ⟨[(1, State.AwaitingDrop)], 1⟩ 1).2.2.2.1 (by decide),
   (remove_spec ⟨[(1, State.Present 5)], 0⟩ 1).2.2.2.2 (by unfold WF; decide)⟩

/-- Claim C3: `checkin(key, value)` applies the wrapping decrement
`fetch_sub(1)` to the outstanding-loan counter and then restores a `Loaned`
slot to `Present(value)`; on an `AwaitingDrop` slot it deletes the slot and
discards the value; on a `Present` slot it fails fatally (the counter
already wrapping-decremented at the panic — `usize::MAX` when it was zero);
on an absent key it fails fatally with the store — counter included —
untouched. -/
theorem checkin_spec (s : LendingLibrary K V) (k : K) (v : V) :
    (lookupSlot k s.store = none →
      checkin s k v = PResult.panic "Returning item not from store" s) ∧
    (∀ w, lookupSlot k s.store = some (State.Present w) →
      checkin s k v = PResult.panic "Returning replaced item"
        ⟨replaceSlot k (State.Present v) s.store, fetchSubOne s.outstanding⟩) ∧
    (lookupSlot k s.store = some State.Loaned →
      checkin s k v = PResult.ok ()
        ⟨replaceSlot k (State.Present v) s.store, fetchSubOne s.outstanding⟩) ∧
    (lookupSlot k s.store = some State.AwaitingDrop →
      checkin s k v = PResult.ok () ⟨eraseSlot k s.store, fetchSubOne s.outstanding⟩) := by
  refine ⟨?_, ?_, ?_, ?_⟩
  · intro h; simp [checkin, h]
  · intro w h; simp [checkin, h]
  · intro h; simp [checkin, h]
  · intro h; simp [checkin, h, eraseSlot_replaceSlot]

/-- Claim C3 witness: the four cases of `checkin_spec` at concrete stores.
The `Present` arm is taken at a zero counter — the state the crate's
`double_reinsert` test reaches — where the wrapping decrement leaves
`usize::MAX = USIZE - 1` in the panic state. -/
theorem checkin_spec_witness :
    (checkin (⟨[], 0⟩ : LendingLibrary Nat Nat) 1 9 =
      PResult.panic "Returning item not from store" ⟨[], 0⟩) ∧
    (checkin (⟨[(1, State.Present 5)], 0⟩ : LendingLibrary Nat Nat) 1 9 =
      PResult.panic "Returning replaced item"
        ⟨replaceSlot 1 (State.Present 9) [(1, State.Present 5)], USIZE - 1⟩) ∧
    (checkin (⟨[(1, State.Loaned)], 1⟩ : LendingLibrary Nat Nat) 1 9 =
      PResult.ok () ⟨replaceSlot 1 (State.Present 9) [(1, State.Loaned)], 0⟩) ∧
    (checkin (⟨[(1, State.AwaitingDrop)], 1⟩ : LendingLibrary Nat Nat) 1 9 =
      PResult.ok () ⟨eraseSlot 1 [(1, State.AwaitingDrop)], 0⟩) :=
  ⟨(checkin_spec ⟨[], 0⟩ 1 9).1 rfl,
   (checkin_spec ⟨[(1, State.Present 5)], 0⟩ 1 9).2.1 5 (by decide),
   (checkin_spec ⟨[(1, State.Loaned)], 1⟩ 1 9).2.2.1 (by decide),
   (checkin_spec ⟨[(1, State.AwaitingDrop)], 1⟩ 1 9).2.2.2 (by decide)⟩

/-- Claim C4: `insert(key, value)` creates a `Present(value)` slot and
returns `None` when the key is absent; replaces the stored value and
returns the old one when the slot is `Present`; and fails fatally when the
slot is `Loaned` or `AwaitingDrop`. -/
theorem insert_spec (s : LendingLibrary K V) (k : K) (v : V) :
    (lookupSlot k s.store = none →
      insert s k v =
        PResult.ok none ⟨s.store ++ [(k, State.Present v)], s.outstanding⟩) ∧
    (∀ w, lookupSlot k s.store = some (State.Present w) →
      insert s k v =
        PResult.ok (some w) ⟨replaceSlot k (State.Present v) s.store, s.outstanding⟩) ∧
    (lookupSlot k s.store = some State.Loaned → (insert s k v).isPanic = true) ∧
    (lookupSlot k s.store = some State.AwaitingDrop → (insert s k v).isPanic = true) := by
  refine ⟨?_, ?_, ?_, ?_⟩
  · intro h
    simp [insert, insertSlot_fst, h, insertSlot_snd_of_none (State.Present v) h]
  · intro w h
    simp [insert, insertSlot_fst, h, insertSlot_snd_of_lookup (State.Present v) h]
  · intro h; simp [insert, insertSlot_fst, h, PResult.isPanic]
  · intro h; simp [insert, insertSlot_fst, h, PResult.isPanic]

/-- Claim C4 witness: the four cases of `insert_spec` at concrete stores. -/
theorem insert_spec_witness :
    (insert (⟨[], 0⟩ : LendingLibrary Nat Nat) 1 5 =
      PResult.ok none ⟨[] ++ [(1, State.Present 5)], 0⟩) ∧
    (insert (⟨[(1, State.Present 5)], 0⟩ : LendingLibrary Nat Nat) 1 7 =
      PResult.ok (some 5) ⟨replaceSlot 1 (State.Present 7) [(1, State.Present 5)], 0⟩) ∧
    ((insert (⟨[(1, State.Loaned)], 1⟩ : LendingLibrary Nat Nat) 1 7).isPanic = true) ∧
    ((insert (⟨[(1, State.AwaitingDrop)], 1⟩ : LendingLibrary Nat Nat) 1 7).isPanic = true) :=
  ⟨(insert_spec ⟨[], 0⟩ 1 5).1 rfl,
   (insert_spec ⟨[(1, State.Present 5)], 0⟩ 1 7).2.1 5 (by decide),
   (insert_spec ⟨[(1, State.Loaned)], 1⟩ 1 7).2.2.1 (by decide),
   (insert_spec ⟨[(1, State.AwaitingDrop)], 1⟩ 1 7).2.2.2 (by decide)⟩

/-- Claim C7: `clear()` deletes every `Present` slot, leaves every
`AwaitingDrop` slot in place unchanged, and fails fatally if any slot is
`Loaned`. -/
theorem clear_spec (s : LendingLibrary K V) :
    ((∀ p ∈ s.store, isLoaned p.2 = false) →
      clear s =
        PResult.ok () ⟨s.store.filter (fun p => isAwaitingDrop p.2), s.outstanding⟩) ∧
    ((∃ p ∈ s.store, isLoaned p.2 = true) → (clear s).isPanic = true) := by
  constructor
  · intro h; simp [clear, clearStore_of_no_loaned h]
  · intro h; simp [clear, clearStore_eq_none h, PResult.isPanic]

/-- Claim C7 witness: `clear_spec` on a store holding a `Present` and an
`AwaitingDrop` slot, and on a store holding a `Loaned` slot. -/
theorem clear_spec_witness :
    (clear (⟨[(1, State.Present 5), (2, State.AwaitingDrop)], 1⟩ : LendingLibrary Nat Nat) =
      PResult.ok ()
        ⟨List.filter (fun p => isAwaitingDrop p.2) [(1, State.Present 5), (2, State.AwaitingDrop)],
         1⟩) ∧
    ((clear (⟨[(1, State.Loaned)], 1⟩ : LendingLibrary Nat Nat)).isPanic = true) :=
  ⟨(clear_spec ⟨[(1, State.Present 5), (2, State.AwaitingDrop)], 1⟩).1 (by decide),
   (clear_spec ⟨[(1, State.Loaned)], 1⟩).2 ⟨(1, State.Loaned), by decide, rfl⟩⟩

/-- Claim C8: `contains_key` is true exactly for a `Present` or `Loaned`
slot; `len` equals the number of `Present`-or-`Loaned` slots (excluding
`AwaitingDrop`); `is_empty` holds exactly when `len` is zero. -/
theorem contains_len_empty_spec (s : LendingLibrary K V) (k : K) :
    (contains_key s k = true ↔
      (∃ v, lookupSlot k s.store = some (State.Present v)) ∨
        lookupSlot k s.store = some State.Loaned) ∧
    len s = countSt isLive s.store ∧
    (is_empty s = true ↔ len s = 0) := by
  refine ⟨?_, len_eq_countSt s, ?_⟩
  · unfold contains_key
    rcases h : lookupSlot k s.store with _ | st
    · simp
    · cases st <;> simp
  · simp [is_empty]

/-- Claim C8 witness: `contains_len_empty_spec` evaluated on a three-slot
store. -/
theorem contains_len_empty_spec_witness :
    (contains_key
        (⟨[(1, State.Present 5), (2, State.Loaned), (3, State.AwaitingDrop)], 1⟩ :
          LendingLibrary Nat Nat) 3 = true ↔
      (∃ v, lookupSlot 3 [(1, State.Present 5), (2, State.Loaned), (3, State.AwaitingDrop)] =
          some (State.Present v)) ∨
        lookupSlot 3 [(1, State.Present 5), (2, State.Loaned), (3, State.AwaitingDrop)] =
          some State.Loaned) ∧
    len (⟨[(1, State.Present 5), (2, State.Loaned), (3, State.AwaitingDrop)], 1⟩ :
        LendingLibrary Nat Nat) =
      countSt isLive [(1, State.Present 5), (2, State.Loaned), (3, State.AwaitingDrop)] ∧
    (is_empty (⟨[(1, State.Present 5), (2, State.Loaned), (3, State.AwaitingDrop)], 1⟩ :
        LendingLibrary Nat Nat) = true ↔
      len (⟨[(1, State.Present 5), (2, State.Loaned), (3, State.AwaitingDrop)], 1⟩ :
        LendingLibrary Nat Nat) = 0) :=
  contains_len_empty_spec ⟨[(1, State.Present 5), (2, State.Loaned), (3, State.AwaitingDrop)], 1⟩ 3

/-- Claim C9: dropping a store with a nonzero outstanding-loan counter is
fatal and the failure detail reports the count; a zero counter drops
cleanly; the check is skipped entirely when already unwinding. -/
theorem drop_leak_spec (s : LendingLibrary K V) :
    (s.outstanding ≠ 0 →
      dropLibrary false s =
        some (toString s.outstanding ++ " value loans outlived store.")) ∧
    (s.outstanding = 0 → dropLibrary false s = none) ∧
    dropLibrary true s = none := by
  refine ⟨?_, ?_, rfl⟩
  · intro h; simp [dropLibrary, h]
  · intro h; simp [dropLibrary, h]

/-- Claim C9 witness: `drop_leak_spec` on a store with two outstanding
loans and on an empty store. -/
theorem drop_leak_spec_witness :
    (dropLibrary false (⟨[(1, State.Loaned), (2, State.Loaned)], 2⟩ : LendingLibrary Nat Nat) =
      some (toString 2 ++ " value loans outlived store.")) ∧
    (dropLibrary false (⟨[], 0⟩ : LendingLibrary Nat Nat) = none) ∧
    (dropLibrary true (⟨[(1, State.Loaned)], 1⟩ : LendingLibrary Nat Nat) = none) :=
  ⟨(drop_leak_spec ⟨[(1, State.Loaned), (2, State.Loaned)], 2⟩).1 (by decide),
   (drop_leak_spec ⟨[], 0⟩).2.1 rfl,
   (drop_leak_spec ⟨[(1, State.Loaned)], 1⟩).2.2⟩

/-- Claim C5: after a successful `insert(k, v)`, `lend(k)` succeeds with a
loan owning `v`; after the loaned value is mutated to any `v'` and the loan
is released by normal scope exit (`loanDrop` with the thread not
unwinding), `contains_key k` is true again and a subsequent `lend(k)`
succeeds observing exactly `v'`. -/
theorem insert_lend_release_roundtrip (s : LendingLibrary K V) (k : K) (v v' : V)
    (old : Option V) (s1 : LendingLibrary K V)
    (h : insert s k v = PResult.ok old s1) :
    ∃ s2 s3 s4 : LendingLibrary K V,
      lend s1 k = PResult.ok (some ⟨some k, some v⟩) s2 ∧
      loanDrop false ⟨some k, some v'⟩ s2 = PResult.ok () s3 ∧
      contains_key s3 k = true ∧
      lend s3 k = PResult.ok (some ⟨some k, some v'⟩) s4 := by
  have h1 : lookupSlot k s1.store = some (State.Present v) := by
    rcases hl : lookupSlot k s.store with _ | st
    · simp only [insert] at h
      rw [insertSlot_fst, hl] at h
      simp only [PResult.ok.injEq] at h
      rw [← h.2]
      exact lookupSlot_insertSlot k (State.Present v) s.store
    · simp only [insert] at h
      rw [insertSlot_fst, hl] at h
      cases st with
      | Present w =>
        simp only [PResult.ok.injEq] at h
        rw [← h.2]
        exact lookupSlot_insertSlot k (State.Present v) s.store
      | Loaned => simp at h
      | AwaitingDrop => simp at h
  have h2 : lookupSlot k (replaceSlot k State.Loaned s1.store) = some State.Loaned :=
    lookupSlot_replace_self _ h1
  have h3 : lookupSlot k
      (replaceSlot k (State.Present v') (replaceSlot k State.Loaned s1.store)) =
      some (State.Present v') :=
    lookupSlot_replace_self _ h2
  refine ⟨⟨replaceSlot k State.Loaned s1.store, s1.outstanding + 1⟩,
    ⟨replaceSlot k (State.Present v') (replaceSlot k State.Loaned s1.store),
      fetchSubOne (s1.outstanding + 1)⟩,
    ⟨replaceSlot k State.Loaned
        (replaceSlot k (State.Present v') (replaceSlot k State.Loaned s1.store)),
      fetchSubOne (s1.outstanding + 1) + 1⟩, ?_, ?_, ?_, ?_⟩
  · simp [lend, h1]
  · simp [loanDrop, checkin, h2]
  · simp [contains_key, h3]
  · simp [lend, h3]

/-- Claim C5 witness: the round trip on the empty store with key `1`,
initial value `5` and mutated value `7`. -/
theorem insert_lend_release_roundtrip_witness :
    ∃ s2 s3 s4 : LendingLibrary Nat Nat,
      lend (⟨[(1, State.Present 5)], 0⟩ : LendingLibrary Nat Nat) 1 =
        PResult.ok (some ⟨some 1, some 5⟩) s2 ∧
      loanDrop false ⟨some 1, some 7⟩ s2 = PResult.ok () s3 ∧
      contains_key s3 1 = true ∧
      lend s3 1 = PResult.ok (some ⟨some 1, some 7⟩) s4 :=
  insert_lend_release_roundtrip ⟨[], 0⟩ 1 5 7 none ⟨[(1, State.Present 5)], 0⟩ (by decide)

/-- Claim C6 counterexample: a store whose single slot is `AwaitingDrop`
has no `Loaned` slot, yet draining its iterator is fatal — the `_` match
arm of `iter.rs` panics on `AwaitingDrop` slots too, contradicting the
claim that `AwaitingDrop` slots do not cause a failure. -/
theorem iter_awaitingDrop_fatal :
    countSt isLoaned ([(0, State.AwaitingDrop)] : List (Nat × State Nat)) = 0 ∧
    iter (⟨[(0, State.AwaitingDrop)], 1⟩ : LendingLibrary Nat Nat) = none ∧
    iter_mut (⟨[(0, State.AwaitingDrop)], 1⟩ : LendingLibrary Nat Nat) (fun _ v => v) =
      none := by
  refine ⟨rfl, rfl, rfl⟩

/-- Claim C6 as amended: draining an immutable or mutable iterator over a
store containing any slot that is not `Present` (`Loaned` or `AwaitingDrop`
alike) is fatal; over a store whose slots are all `Present` it visits
exactly the `Present` entries, each exactly once (and the mutable iterator
additionally writes `f` through each visited entry). -/
theorem iter_spec_amended (s : LendingLibrary K V) (f : K → V → V) :
    ((∃ p ∈ s.store, ∀ v, p.2 ≠ State.Present v) →
      iter s = none ∧ iter_mut s f = none) ∧
    ((∀ p ∈ s.store, ∃ v, p.2 = State.Present v) →
      iter s = some (presentPairs s.store) ∧
      iter_mut s f = some (presentPairs s.store, ⟨mutStore f s.store, s.outstanding⟩)) := by
  constructor
  · intro h
    exact ⟨iterEntries_eq_none h, by simp [iter_mut, iterMutEntries_eq_none f h]⟩
  · intro h
    exact ⟨iterEntries_of_all_present h,
      by simp [iter_mut, iterMutEntries_of_all_present f h]⟩

/-- Claim C6 witness: `iter_spec_amended` on a store holding one `Loaned`
slot (fatal) and on an all-`Present` store (visits exactly its entries). -/
theorem iter_spec_amended_witness :
    (iter (⟨[(1, State.Loaned)], 1⟩ : LendingLibrary Nat Nat) = none ∧
      iter_mut (⟨[(1, State.Loaned)], 1⟩ : LendingLibrary Nat Nat) (fun _ v => v + 1) = none) ∧
    (iter (⟨[(1, State.Present 5), (2, State.Present 6)], 0⟩ : LendingLibrary Nat Nat) =
      some (presentPairs [(1, State.Present 5), (2, State.Present 6)]) ∧
      iter_mut (⟨[(1, State.Present 5), (2, State.Present 6)], 0⟩ : LendingLibrary Nat Nat)
          (fun _ v => v + 1) =
        some (presentPairs [(1, State.Present 5), (2, State.Present 6)],
          ⟨mutStore (fun _ v => v + 1) [(1, State.Present 5), (2, State.Present 6)], 0⟩)) :=
  ⟨(iter_spec_amended ⟨[(1, State.Loaned)], 1⟩ (fun _ v => v + 1)).1
      ⟨(1, State.Loaned), by decide, fun v => by simp⟩,
   (iter_spec_amended ⟨[(1, State.Present 5), (2, State.Present 6)], 0⟩ (fun _ v => v + 1)).2
      (by
        intro p hp
        simp only [List.mem_cons, List.not_mem_nil, or_false] at hp
        rcases hp with rfl | rfl
        · exact ⟨5, rfl⟩
        · exact ⟨6, rfl⟩)⟩

/-- Claim C10: in every store reachable from the empty store by
non-panicking `insert`, `remove`, `lend` and loan-release operations, the
outstanding-loan counter equals the number of `Loaned` slots plus the
number of `AwaitingDrop` slots. -/
theorem outstanding_invariant (s : LendingLibrary K V) (h : Reachable s) :
    s.outstanding = countSt isLoaned s.store + countSt isAwaitingDrop s.store := by
  induction h with
  | init => rfl
  | insertStep s k v old s' hr heq ih =>
    simp only [insert] at heq
    rw [insertSlot_fst] at heq
    rcases hl : lookupSlot k s.store with _ | st
    · rw [hl] at heq
      simp only [PResult.ok.injEq] at heq
      rw [← heq.2]
      dsimp only
      rw [insertSlot_snd_of_none (State.Present v) hl]
      simp only [countSt_append, countSt_cons, countSt_nil]
      simp [isLoaned, isAwaitingDrop]
      omega
    · rw [hl] at heq
      cases st with
      | Present w =>
        simp only [PResult.ok.injEq] at heq
        rw [← heq.2]
        dsimp only
        rw [insertSlot_snd_of_lookup (State.Present v) hl]
        have c1 := countSt_replace isLoaned (State.Present v) hl
        have c2 := countSt_replace isAwaitingDrop (State.Present v) hl
        simp [isLoaned, isAwaitingDrop] at c1 c2
        omega
      | Loaned => simp at heq
      | AwaitingDrop => simp at heq
  | removeStep s k b s' hr heq ih =>
    simp only [remove] at heq
    rcases hl : lookupSlot k s.store with _ | st
    · rw [hl] at heq
      simp only [Prod.mk.injEq] at heq
      rw [← heq.2]
      exact ih
    · rw [hl] at heq
      cases st with
      | Present w =>
        simp only [Prod.mk.injEq] at heq
        rw [← heq.2]
        dsimp only
        rw [eraseSlot_replaceSlot]
        have c1 := countSt_erase isLoaned hl
        have c2 := countSt_erase isAwaitingDrop hl
        simp [isLoaned, isAwaitingDrop] at c1 c2
        omega
      | Loaned =>
        simp only [Prod.mk.injEq] at heq
        rw [← heq.2]
        dsimp only
        have c1 := countSt_replace isLoaned State.AwaitingDrop hl
        have c2 := countSt_replace isAwaitingDrop State.AwaitingDrop hl
        simp [isLoaned, isAwaitingDrop] at c1 c2
        omega
      | AwaitingDrop =>
        simp only [Prod.mk.injEq] at heq
        rw [← heq.2]
        dsimp only
        have c1 := countSt_replace isLoaned State.AwaitingDrop hl
        have c2 := countSt_replace isAwaitingDrop State.AwaitingDrop hl
        simp [isLoaned, isAwaitingDrop] at c1 c2
        omega
  | lendStep s k r s' hr heq ih =>
    simp only [lend] at heq
    rcases hl : lookupSlot k s.store with _ | st
    · rw [hl] at heq
      simp only [PResult.ok.injEq] at heq
      rw [← heq.2]
      exact ih
    · rw [hl] at heq
      cases st with
      | Present w =>
        simp only [PResult.ok.injEq] at heq
        rw [← heq.2]
        dsimp only
        have c1 := countSt_replace isLoaned State.Loaned hl
        have c2 := countSt_replace isAwaitingDrop State.Loaned hl
        simp [isLoaned, isAwaitingDrop] at c1 c2
        omega
      | Loaned => simp at heq
      | AwaitingDrop => simp at heq
  | releaseStep s k v s' hr heq ih =>
    simp only [checkin] at heq
    rcases hl : lookupSlot k s.store with _ | st
    · rw [hl] at heq
      simp at heq
    · rw [hl] at heq
      cases st with
      | Present w => simp at heq
      | Loaned =>
        simp only [PResult.ok.injEq, true_and] at heq
        rw [← heq]
        dsimp only
        have c1 := countSt_replace isLoaned (State.Present v) hl
        have c2 := countSt_replace isAwaitingDrop (State.Present v) hl
        have hp := countSt_pos isLoaned hl rfl
        simp [isLoaned, isAwaitingDrop] at c1 c2
        have ho : 0 < s.outstanding := by omega
        rw [fetchSubOne_pos ho]
        omega
      | AwaitingDrop =>
        simp only [PResult.ok.injEq, true_and] at heq
        rw [← heq]
        dsimp only
        rw [eraseSlot_replaceSlot]
        have c1 := countSt_erase isLoaned hl
        have c2 := countSt_erase isAwaitingDrop hl
        have hp := countSt_pos isAwaitingDrop hl rfl
        simp [isLoaned, isAwaitingDrop] at c1 c2
        have ho : 0 < s.outstanding := by omega
        rw [fetchSubOne_pos ho]
        omega

/-- Claim C10 witness: the invariant at the store reached by
`insert 1 5` then `lend 1` from the empty store — one `Loaned` slot, no
`AwaitingDrop` slot, counter `1`. -/
theorem outstanding_invariant_witness :
    (⟨[(1, State.Loaned)], 1⟩ : LendingLibrary Nat Nat).outstanding =
      countSt isLoaned ((⟨[(1, State.Loaned)], 1⟩ : LendingLibrary Nat Nat)).store +
        countSt isAwaitingDrop ((⟨[(1, State.Loaned)], 1⟩ : LendingLibrary Nat Nat)).store :=
  outstanding_invariant ⟨[(1, State.Loaned)], 1⟩
    (Reachable.lendStep ⟨[(1, State.Present 5)], 0⟩ 1 (some ⟨some 1, some 5⟩)
      ⟨[(1, State.Loaned)], 1⟩
      (Reachable.insertStep new 1 5 none ⟨[(1, State.Present 5)], 0⟩
        Reachable.init (by decide))
      (by decide))

end LendingLibrary
